import Mathlib

/-!
A verification development for a small recursive ray tracer (Rust sources:
vector.rs, raytracer.rs).  The embedding is shallow: every `f64` value is
modelled as a real number, `Vec<T>` as `List T`, `Option<T>` as `Option T`,
and the trait-object collection of geometry as a closed sum type.

Modelling notes, recorded once here:
* `f64` arithmetic is modelled by exact real arithmetic.  Division by zero
  yields `0` in Lean rather than an IEEE infinity; no theorem below relies on
  the value of a division by zero, and the one claim whose content is the
  propagation of IEEE non-finite values is left unformalised.
* The `±INFINITY` initial slab bounds in `BBox::intersects` mean that the
  X slab always installs its entry/exit scalars as `tnear`/`tfar`; the
  translation performs that first installation directly.  The `swap` of
  `t1`/`t2` is rendered as `min`/`max`.
* `cast_ray` starts from `closest = INFINITY`; with finite hit distances the
  running `closest` always equals the distance of the stored intersection,
  so the accumulator is the stored `Option Intersection` alone.
* The Rust float-to-integer cast `as u8` (saturating: truncation toward
  zero, clamped to `[0, 255]`, since Rust 1.45) is modelled by
  `min (Int.toNat ⌊x⌋) 255`; for `x ≥ 0` truncation coincides with `⌊·⌋`,
  and for `x < 0` both the cast and `Int.toNat ⌊x⌋` give `0`.
* The Rust `%` on `i32` is truncated modulo, i.e. `Int.tmod`.
* `f64::powf` on the nonnegative base produced by `max ... 0.0` is modelled
  by `Real.rpow`.
-/

noncomputable section

namespace RT

/-- 3-component vector of `f64` values (positions, directions, colors);
from vector.rs `Vector3`. -/
structure Vector3 where
  x : ℝ
  y : ℝ
  z : ℝ

instance : Add Vector3 :=
  ⟨fun a b => ⟨a.x + b.x, a.y + b.y, a.z + b.z⟩⟩

instance : Sub Vector3 :=
  ⟨fun a b => ⟨a.x - b.x, a.y - b.y, a.z - b.z⟩⟩

instance : HMul Vector3 ℝ Vector3 :=
  ⟨fun v s => ⟨v.x * s, v.y * s, v.z * s⟩⟩

/-- vector.rs `Vector3::cross`. -/
def Vector3.cross (self other : Vector3) : Vector3 :=
  ⟨self.y * other.z - self.z * other.y,
   self.z * other.x - self.x * other.z,
   self.x * other.y - self.y * other.x⟩

/-- vector.rs `Vector3::dot`. -/
def Vector3.dot (self other : Vector3) : ℝ :=
  self.x * other.x + self.y * other.y + self.z * other.z

/-- vector.rs `Vector3::normalize`: divide by the Euclidean length. -/
def Vector3.normalize (self : Vector3) : Vector3 :=
  let len := Real.sqrt (self.x * self.x + self.y * self.y + self.z * self.z)
  ⟨self.x / len, self.y / len, self.z / len⟩

/-- The Rust saturating cast `as u8` applied to an `f64`: truncate toward
zero and clamp into `[0, 255]` (for `x ≥ 0` truncation is `⌊·⌋`; for `x < 0`
both the cast and `Int.toNat ⌊x⌋` yield `0`). -/
def f64_to_u8 (x : ℝ) : ℕ := min (Int.toNat ⌊x⌋) 255

/-- vector.rs `Vector3::to_rgb`: `(c * 255.0).min(255.0) as u8` per channel. -/
def Vector3.to_rgb (self : Vector3) : ℕ × ℕ × ℕ :=
  (f64_to_u8 (min (self.x * 255) 255),
   f64_to_u8 (min (self.y * 255) 255),
   f64_to_u8 (min (self.z * 255) 255))

/-- raytracer.rs `Material`. -/
structure Material where
  shininess : ℝ
  spec_color : Vector3
  color : Vector3
  reflection : ℝ

/-- raytracer.rs `Sphere`. -/
structure Sphere where
  pos : Vector3
  radius : ℝ
  material : Material

/-- raytracer.rs `Plane`. -/
structure Plane where
  pos : Vector3
  normal : Vector3
  material : Material

/-- raytracer.rs `BBox` (axis-aligned box with corners `v1`, `v2`). -/
structure BBox where
  v1 : Vector3
  v2 : Vector3
  material : Material

/-- raytracer.rs `Camera`. -/
structure Camera where
  pos : Vector3
  up : Vector3
  right : Vector3
  dist : ℝ

/-- raytracer.rs `Light`. -/
structure Light where
  pos : Vector3
  color : Vector3

/-- raytracer.rs `Intersection`. -/
structure Intersection where
  pos : Vector3
  normal : Vector3
  dist : ℝ
  material : Material

/-- raytracer.rs `Ray`. -/
structure Ray where
  origin : Vector3
  dir : Vector3

/-- raytracer.rs `Sphere::intersects` (`impl Geometry for Sphere`). -/
def Sphere.intersects (self : Sphere) (ray : Ray) : Option Intersection :=
  let l := self.pos - ray.origin
  let tca := l.dot ray.dir
  if tca < 0 then none
  else
    let d := Real.sqrt (l.dot l - tca * tca)
    let d2 := d * d
    let radius2 := self.radius * self.radius
    if d2 > radius2 then none
    else
      let thc := Real.sqrt (radius2 - d2)
      let t0 := tca - thc
      let t1 := tca + thc
      if t0 < 0 ∧ t1 < 0 then none
      else
        let t := if t0 < 0 then t1 else min t0 t1
        let p := ray.origin + ray.dir * t
        let n := (p - self.pos).normalize
        some (Intersection.mk p n t self.material)

/-- raytracer.rs `Plane::intersects` (`impl Geometry for Plane`), including
the checkerboard rescaling of the material's base color.  The Rust cast of
the summed floors to `i32` is exact (the floors are integers), and `% 2` on
`i32` is truncated modulo, `Int.tmod`. -/
def Plane.intersects (self : Plane) (ray : Ray) : Option Intersection :=
  let t := ((self.pos - ray.origin).dot self.normal) / (ray.dir.dot self.normal)
  if t > 0 then
    let p := ray.origin + ray.dir * t
    let c : ℤ := (⌊2 * p.z⌋ + ⌊2 * p.x⌋).tmod 2
    let material := Material.mk self.material.shininess self.material.spec_color
      (self.material.color * (|c| : ℝ)) self.material.reflection
    some (Intersection.mk p self.normal t material)
  else none

/-- raytracer.rs `BBox::intersects` (`impl Geometry for BBox`), slab method.
The `±INFINITY` initial bounds make the X slab always install its values,
and each `swap` is rendered as `min`/`max`; otherwise the update sequence is
line for line the Rust loop body, with the running normal tracked alongside
`tnear`. -/
def BBox.intersects (self : BBox) (ray : Ray) : Option Intersection :=
  if ray.dir.x = 0 ∧ ray.origin.x < self.v1.x ∧ ray.origin.x > self.v2.x then none
  else
    let t1x := (self.v1.x - ray.origin.x) / ray.dir.x
    let t2x := (self.v2.x - ray.origin.x) / ray.dir.x
    let tnear := min t1x t2x
    let tfar := max t1x t2x
    let n : Vector3 := ⟨1, 0, 0⟩
    if tnear > tfar ∨ tfar < 0 then none
    else
      let t1y := (self.v1.y - ray.origin.y) / ray.dir.y
      let t2y := (self.v2.y - ray.origin.y) / ray.dir.y
      let t1y' := min t1y t2y
      let t2y' := max t1y t2y
      let tnear' := if t1y' > tnear then t1y' else tnear
      let n' : Vector3 := if t1y' > tnear then ⟨0, 1, 0⟩ else n
      let tfar' := if t2y' < tfar then t2y' else tfar
      if tnear' > tfar' ∨ tfar' < 0 then none
      else
        let t1z := (self.v1.z - ray.origin.z) / ray.dir.z
        let t2z := (self.v2.z - ray.origin.z) / ray.dir.z
        let t1z' := min t1z t2z
        let t2z' := max t1z t2z
        let tnear'' := if t1z' > tnear' then t1z' else tnear'
        let n'' : Vector3 := if t1z' > tnear' then ⟨0, 0, -1⟩ else n'
        let tfar'' := if t2z' < tfar' then t2z' else tfar'
        if tnear'' > tfar'' ∨ tfar'' < 0 then none
        else
          some (Intersection.mk (ray.origin + ray.dir * tnear'') n'' tnear'' self.material)

/-- The closed set of geometry variants behind the `Geometry` trait. -/
inductive Geometry where
  | sphere (s : Sphere)
  | plane (p : Plane)
  | box (b : BBox)

/-- Trait dispatch for `intersects`. -/
def Geometry.intersects : Geometry → Ray → Option Intersection
  | .sphere s, ray => s.intersects ray
  | .plane p, ray => p.intersects ray
  | .box b, ray => b.intersects ray

/-- Trait dispatch for `material`. -/
def Geometry.material : Geometry → Material
  | .sphere s => s.material
  | .plane p => p.material
  | .box b => b.material

/-- raytracer.rs `Scene`. -/
structure Scene where
  camera : Camera
  lights : List Light
  objects : List Geometry

/-- raytracer.rs `cast_ray`: nearest hit over all objects, strict `<`
comparison against the best distance so far (initially `INFINITY`, so any
finite hit beats the initial bound; the running `closest` always equals the
stored intersection's distance). -/
def cast_ray (scene : Scene) (ray : Ray) : Option Intersection :=
  scene.objects.foldl
    (fun isect o =>
      match o.intersects ray with
      | some i =>
        match isect with
        | none => some i
        | some j => if i.dist < j.dist then some i else some j
      | none => isect)
    none

/-- raytracer.rs `blinn_phong`.  The specular exponentiation `powf` (on the
nonnegative base produced by `max ... 0.0`) is modelled by `Real.rpow`. -/
def blinn_phong (light_dir : Vector3) (isect : Intersection) : Vector3 :=
  let material := isect.material
  let diffuse := max (light_dir.dot isect.normal) 0
  let specular :=
    if diffuse > 0 then
      let view_dir := (isect.pos * (-1 : ℝ)).normalize
      let half_dir := (light_dir + view_dir).normalize
      let spec_angle := max (half_dir.dot isect.normal) 0
      Real.rpow spec_angle material.shininess
    else (0 : ℝ)
  material.color * diffuse + material.spec_color * specular

mutual

/-- raytracer.rs `shade_pixel`: background color on a miss, otherwise the
per-light shading loop (`shade_lights`) starting from black. -/
def shade_pixel (scene : Scene) (ray : Ray) (trace_depth : ℤ) : Vector3 :=
  match cast_ray scene ray with
  | none => ⟨0, 0.4, 1⟩
  | some isect => shade_lights scene ray isect trace_depth scene.lights ⟨0, 0, 0⟩
termination_by (trace_depth.toNat, 1, 0)

/-- The body of the `for ref light in &scene.lights` loop of `shade_pixel`,
with the mutable `pixel` accumulator passed explicitly: shadow test, ambient
term, then the (possibly overwriting) reflection branch. -/
def shade_lights (scene : Scene) (ray : Ray) (isect : Intersection)
    (trace_depth : ℤ) (lights : List Light) (pixel : Vector3) : Vector3 :=
  match lights with
  | [] => pixel
  | light :: rest =>
    let light_dir := (light.pos - isect.pos).normalize
    let shadow_ray : Ray := ⟨isect.pos + light_dir * (0.001 : ℝ), light_dir⟩
    let pixel1 :=
      match cast_ray scene shadow_ray with
      | some _ => pixel
      | none => pixel + blinn_phong light_dir isect
    let pixel2 := pixel1 + isect.material.color * (0.1 : ℝ)
    let pixel3 :=
      if 0 < isect.material.reflection then
        let reflection_dir := ray.dir - isect.normal * (ray.dir.dot isect.normal) * (2 : ℝ)
        let reflection_ray : Ray := ⟨isect.pos + reflection_dir * (0.001 : ℝ), reflection_dir⟩
        if _h : 0 < trace_depth then
          shade_pixel scene reflection_ray (trace_depth - 1) * isect.material.reflection
        else pixel2
      else pixel2
    shade_lights scene ray isect trace_depth rest pixel3
termination_by (trace_depth.toNat, 0, lights.length)
decreasing_by
  · exact Prod.Lex.left _ _ (by omega)
  · exact Prod.Lex.right _ (Prod.Lex.right _ (by simp))

end

/-- raytracer.rs `raytrace`: the double pixel loop over a buffer initialised
to black, writing each shaded pixel at the row-flipped index. -/
def raytrace (scene : Scene) (width height : ℕ) : List Vector3 :=
  (List.range height).foldl
    (fun pixels (y : ℕ) =>
      (List.range width).foldl
        (fun pixels (x : ℕ) =>
          let u := (x : ℝ) * 2 / (width : ℝ) - 1
          let v := (y : ℝ) * 2 / (height : ℝ) - 1
          let camera := scene.camera
          let forward := (camera.right.cross camera.up).normalize
          let pos := camera.pos + forward * camera.dist + camera.right * u + camera.up * v
          let ray_dir := (pos - camera.pos).normalize
          pixels.set (((height - 1 - y) * width + x : ℕ))
            (shade_pixel scene ⟨camera.pos, ray_dir⟩ 3))
        pixels)
    (List.replicate (width * height) ⟨0, 0, 0⟩)

/-- The per-light loop of `shade_pixel` with the reflection branch removed
(shadow test and ambient term only); used to characterise shading at an
exhausted depth budget, where the code never takes the reflection branch. -/
def shade_lights_direct (scene : Scene) (isect : Intersection) :
    List Light → Vector3 → Vector3
  | [], pixel => pixel
  | light :: rest, pixel =>
    let light_dir := (light.pos - isect.pos).normalize
    let shadow_ray : Ray := ⟨isect.pos + light_dir * (0.001 : ℝ), light_dir⟩
    let pixel1 :=
      match cast_ray scene shadow_ray with
      | some _ => pixel
      | none => pixel + blinn_phong light_dir isect
    shade_lights_direct scene isect rest (pixel1 + isect.material.color * (0.1 : ℝ))

/-- Modelled from the spec: the display conversion the specification claims,
`round(min(c, 1.0) * 255)` per channel; stated for comparison against the
implemented truncating conversion `f64_to_u8`. -/
def display_color_spec (c : ℝ) : ℤ := round (min c 1 * 255)

/-- A camera placed at the origin; used only to populate concrete scenes. -/
def camera0 : Camera := ⟨⟨0, 0, 0⟩, ⟨0, 1, 0⟩, ⟨1, 0, 0⟩, 1⟩

/-- A fully diffuse red material. -/
def red_mat : Material := ⟨16, ⟨1, 1, 1⟩, ⟨1, 0, 0⟩, 0⟩

/-- A perfect mirror material (reflection coefficient 1). -/
def mirror_mat : Material := ⟨32, ⟨1, 1, 1⟩, ⟨1, 1, 1⟩, 1⟩

/-- A mirror box with corners (1,1,1) and (2,2,2). -/
def mirror_box : BBox := ⟨⟨1, 1, 1⟩, ⟨2, 2, 2⟩, mirror_mat⟩

/-- The unit-radius-style box around the origin, corners (-1,-1,-1), (1,1,1). -/
def unit_box : BBox := ⟨⟨-1, -1, -1⟩, ⟨1, 1, 1⟩, red_mat⟩

/-- The ground plane y = -1 with upward normal and red checkered material. -/
def plane0 : Plane := ⟨⟨0, -1, 0⟩, ⟨0, 1, 0⟩, red_mat⟩

/-- A unit sphere centred at (0,0,2). -/
def sphere0 : Sphere := ⟨⟨0, 0, 2⟩, 1, red_mat⟩

/-- One white point light. -/
def light0 : Light := ⟨⟨30, 30, 30⟩, ⟨1, 1, 1⟩⟩

/-- A scene with no lights and no objects. -/
def empty_scene : Scene := ⟨camera0, [], []⟩

/-- A scene containing only the mirror box and no lights. -/
def box_scene : Scene := ⟨camera0, [], [Geometry.box mirror_box]⟩

/-- The mirror-box scene with a single light. -/
def box_scene_lit : Scene := ⟨camera0, [light0], [Geometry.box mirror_box]⟩

/-- A ray from the origin toward (1,1,1); it hits `mirror_box` at (1,1,1). -/
def box_ray : Ray := ⟨⟨0, 0, 0⟩, ⟨1, 1, 1⟩⟩

/-- A downward ray hitting `plane0` at the lattice point (1,-1,1). -/
def ray_down : Ray := ⟨⟨1, 0, 1⟩, ⟨0, -1, 0⟩⟩

/-- A ray along +Z from the origin; it hits `sphere0` at (0,0,1). -/
def ray_z : Ray := ⟨⟨0, 0, 0⟩, ⟨0, 0, 1⟩⟩

/-- An arbitrary ray used where only well-formedness matters. -/
def ray0 : Ray := ⟨⟨0, 0, 0⟩, ⟨0, 0, 1⟩⟩

/-- The intersection `mirror_box` reports for `box_ray`. -/
def box_isect : Intersection := ⟨⟨1, 1, 1⟩, ⟨1, 0, 0⟩, 1, mirror_mat⟩

/-- The intersection `plane0` reports for `ray_down` (even checker cell, so
the base color is zeroed). -/
def plane_isect : Intersection := ⟨⟨1, -1, 1⟩, ⟨0, 1, 0⟩, 1, ⟨16, ⟨1, 1, 1⟩, ⟨0, 0, 0⟩, 0⟩⟩

/-- The intersection `sphere0` reports for `ray_z`. -/
def sphere_isect : Intersection := ⟨⟨0, 0, 1⟩, ⟨0, 0, -1⟩, 1, red_mat⟩

/-- The intersection `unit_box` reports for `box_ray`, whose origin lies
inside the box: the reported distance is negative. -/
def inside_isect : Intersection := ⟨⟨-1, -1, -1⟩, ⟨1, 0, 0⟩, -1, red_mat⟩

/-! ### Componentwise forms of the vector operations -/

@[simp] theorem add_def (a b : Vector3) :
    a + b = ⟨a.x + b.x, a.y + b.y, a.z + b.z⟩ := rfl

@[simp] theorem sub_def (a b : Vector3) :
    a - b = ⟨a.x - b.x, a.y - b.y, a.z - b.z⟩ := rfl

@[simp] theorem smul_def (v : Vector3) (s : ℝ) :
    v * s = ⟨v.x * s, v.y * s, v.z * s⟩ := rfl

theorem smul_zero_vec (v : Vector3) : v * (0 : ℝ) = ⟨0, 0, 0⟩ := by simp

theorem smul_one_vec (v : Vector3) : v * (1 : ℝ) = v := by simp

theorem add_zero_vec (v : Vector3) : v + ⟨0, 0, 0⟩ = v := by simp

/-! ### Parity of the Rust `% 2` (truncated modulo) -/

theorem tmod_two_of_even (s : ℤ) (h : Even s) : s.tmod 2 = 0 := by
  obtain ⟨k, hk⟩ := h
  exact Int.tmod_eq_zero_of_dvd ⟨k, by omega⟩

theorem abs_tmod_two_of_odd (s : ℤ) (h : ¬ Even s) : |s.tmod 2| = 1 := by
  match s with
  | Int.ofNat m =>
    have hm : ¬ Even m := fun he => h ((Int.even_coe_nat m).mpr he)
    have hm1 : m % 2 = 1 := Nat.odd_iff.mp (Nat.not_even_iff_odd.mp hm)
    show |Int.tmod (Int.ofNat m) 2| = 1
    rw [show Int.tmod (Int.ofNat m) 2 = Int.ofNat (m % 2) from rfl, hm1]
    rfl
  | Int.negSucc m =>
    have hm : ¬ Even (m + 1) := by
      intro he
      apply h
      rw [Int.negSucc_eq]
      have h2 : Even (((m + 1 : ℕ) : ℤ)) := (Int.even_coe_nat (m + 1)).mpr he
      push_cast at h2
      exact h2.neg
    have hm1 : (m + 1) % 2 = 1 := Nat.odd_iff.mp (Nat.not_even_iff_odd.mp hm)
    show |Int.tmod (Int.negSucc m) 2| = 1
    rw [show Int.tmod (Int.negSucc m) 2 = -Int.ofNat ((m + 1) % 2) from rfl, hm1]
    rfl

/-! ### Evaluation of the intersection routines on concrete inputs -/

theorem box_hit : mirror_box.intersects box_ray = some box_isect := by
  simp only [BBox.intersects, mirror_box, box_ray, box_isect, mirror_mat]
  norm_num [min_def, max_def]

theorem cast_box : cast_ray box_scene box_ray = some box_isect := by
  simp [cast_ray, box_scene, Geometry.intersects, box_hit]

theorem cast_box_lit : cast_ray box_scene_lit box_ray = some box_isect := by
  simp [cast_ray, box_scene_lit, Geometry.intersects, box_hit]

theorem inside_hit : unit_box.intersects box_ray = some inside_isect := by
  simp only [BBox.intersects, unit_box, box_ray, inside_isect, red_mat]
  norm_num [min_def, max_def]

theorem floor_two_real : ⌊(2 : ℝ)⌋ = 2 := by
  rw [Int.floor_eq_iff]
  norm_num

theorem plane_hit : plane0.intersects ray_down = some plane_isect := by
  simp only [Plane.intersects, plane0, ray_down, plane_isect, red_mat, Vector3.dot,
    sub_def, add_def, smul_def]
  norm_num [floor_two_real, show Int.tmod 4 2 = 0 from by decide]

theorem sphere_hit : sphere0.intersects ray_z = some sphere_isect := by
  simp only [Sphere.intersects, sphere0, ray_z, sphere_isect, red_mat, Vector3.dot,
    Vector3.normalize, sub_def, add_def, smul_def]
  norm_num [min_def]

/-! ### Unfolding equations for the shading recursion -/

theorem shade_pixel_eq (scene : Scene) (ray : Ray) (d : ℤ) :
    shade_pixel scene ray d =
      match cast_ray scene ray with
      | none => ⟨0, 0.4, 1⟩
      | some isect => shade_lights scene ray isect d scene.lights ⟨0, 0, 0⟩ := by
  rw [shade_pixel]

theorem shade_lights_nil (scene : Scene) (ray : Ray) (isect : Intersection)
    (d : ℤ) (pixel : Vector3) :
    shade_lights scene ray isect d [] pixel = pixel := by
  rw [shade_lights]

theorem shade_lights_cons (scene : Scene) (ray : Ray) (isect : Intersection)
    (d : ℤ) (light : Light) (rest : List Light) (pixel : Vector3) :
    shade_lights scene ray isect d (light :: rest) pixel =
      (let light_dir := (light.pos - isect.pos).normalize
       let shadow_ray : Ray := ⟨isect.pos + light_dir * (0.001 : ℝ), light_dir⟩
       let pixel1 :=
         match cast_ray scene shadow_ray with
         | some _ => pixel
         | none => pixel + blinn_phong light_dir isect
       let pixel2 := pixel1 + isect.material.color * (0.1 : ℝ)
       let pixel3 :=
         if 0 < isect.material.reflection then
           let reflection_dir := ray.dir - isect.normal * (ray.dir.dot isect.normal) * (2 : ℝ)
           let reflection_ray : Ray := ⟨isect.pos + reflection_dir * (0.001 : ℝ), reflection_dir⟩
           if _h : 0 < d then
             shade_pixel scene reflection_ray (d - 1) * isect.material.reflection
           else pixel2
         else pixel2
       shade_lights scene ray isect d rest pixel3) := by
  rw [shade_lights]

theorem refl_miss :
    cast_ray box_scene_lit
      ⟨box_isect.pos + (box_ray.dir - box_isect.normal * (box_ray.dir.dot box_isect.normal) * (2 : ℝ)) * (0.001 : ℝ),
       box_ray.dir - box_isect.normal * (box_ray.dir.dot box_isect.normal) * (2 : ℝ)⟩ = none := by
  simp only [cast_ray, box_scene_lit, Geometry.intersects, BBox.intersects, mirror_box,
    box_isect, box_ray, mirror_mat, Vector3.dot, sub_def, add_def, smul_def, List.foldl]
  norm_num [min_def, max_def]

/-! ### C2: background color on a miss -/

/-- C2 (counterexample): the claim names background (0.5, 0.4, 1.0), but the
code returns (0.0, 0.4, 1.0): on a scene with no objects, a ray (which hits
nothing) shades to (0, 0.4, 1), which differs from (0.5, 0.4, 1). -/
theorem c2_background_counterexample :
    shade_pixel empty_scene ray0 3 = ⟨0, 0.4, 1⟩ ∧
    Vector3.mk 0 0.4 1 ≠ Vector3.mk 0.5 0.4 1 := by
  constructor
  · rw [shade_pixel_eq, show cast_ray empty_scene ray0 = none from rfl]
  · intro h
    have hx := congrArg Vector3.x h
    norm_num at hx

/-- C2 (amended): for every ray that hits no object, `shade_pixel` returns
exactly the fixed background color (0.0, 0.4, 1.0), at every recursion
depth. -/
theorem c2_background_on_miss (scene : Scene) (ray : Ray) (d : ℤ)
    (h : cast_ray scene ray = none) :
    shade_pixel scene ray d = ⟨0, 0.4, 1⟩ := by
  rw [shade_pixel_eq, h]

theorem c2_background_on_miss_witness :
    shade_pixel empty_scene ray_z 0 = ⟨0, 0.4, 1⟩ :=
  c2_background_on_miss empty_scene ray_z 0 rfl

/-! ### C10: empty light list shades every hit black -/

/-- C10: if the scene has no lights, every ray that hits an object shades to
black (0,0,0) at every depth budget — the per-light loop never runs. -/
theorem c10_no_lights_black (scene : Scene) (ray : Ray) (d : ℤ)
    (isect : Intersection) (hl : scene.lights = [])
    (hi : cast_ray scene ray = some isect) :
    shade_pixel scene ray d = ⟨0, 0, 0⟩ := by
  rw [shade_pixel_eq, hi]
  show shade_lights scene ray isect d scene.lights ⟨0, 0, 0⟩ = ⟨0, 0, 0⟩
  rw [hl, shade_lights_nil]

theorem c10_no_lights_black_witness :
    shade_pixel box_scene box_ray 7 = ⟨0, 0, 0⟩ :=
  c10_no_lights_black box_scene box_ray 7 box_isect rfl cast_box

/-! ### C5: terminal-depth cutoff -/

/-- C5 (counterexample): at depth budget 0 a mirror-only object surrounded
by background does NOT shade to the background scaled by its reflection
coefficient 1.0: with no lights it shades to black, not (0, 0.4, 1) * 1. -/
theorem c5_depth_zero_counterexample :
    shade_pixel box_scene box_ray 0 = ⟨0, 0, 0⟩ ∧
    Vector3.mk 0 0 0 ≠ Vector3.mk 0 0.4 1 * (1 : ℝ) := by
  constructor
  · rw [shade_pixel_eq, cast_box]
    show shade_lights box_scene box_ray box_isect 0 box_scene.lights ⟨0, 0, 0⟩ = ⟨0, 0, 0⟩
    rw [show box_scene.lights = [] from rfl, shade_lights_nil]
  · intro h
    simp only [smul_def, Vector3.mk.injEq] at h
    norm_num at h

/-- C5 (amended): with depth budget ≤ 0 the reflection branch is never
taken — the result is exactly the direct (shadow test + ambient)
accumulation with no recursive call; the background contribution scaled by
the reflection coefficient arises at positive depth, when the hit is
reflective and the reflection ray misses everything. -/
theorem c5_depth_cutoff :
    (∀ (scene : Scene) (ray : Ray) (d : ℤ), d ≤ 0 →
      shade_pixel scene ray d =
        match cast_ray scene ray with
        | none => ⟨0, 0.4, 1⟩
        | some isect => shade_lights_direct scene isect scene.lights ⟨0, 0, 0⟩) ∧
    (∀ (scene : Scene) (ray : Ray) (isect : Intersection) (light : Light) (d : ℤ),
      scene.lights = [light] →
      cast_ray scene ray = some isect →
      0 < isect.material.reflection → 0 < d →
      cast_ray scene
        ⟨isect.pos + (ray.dir - isect.normal * (ray.dir.dot isect.normal) * (2 : ℝ)) * (0.001 : ℝ),
         ray.dir - isect.normal * (ray.dir.dot isect.normal) * (2 : ℝ)⟩ = none →
      shade_pixel scene ray d = Vector3.mk 0 0.4 1 * isect.material.reflection) := by
  have key : ∀ (scene : Scene) (ray : Ray) (isect : Intersection) (d : ℤ), d ≤ 0 →
      ∀ (lights : List Light) (pixel : Vector3),
        shade_lights scene ray isect d lights pixel =
          shade_lights_direct scene isect lights pixel := by
    intro scene ray isect d hd lights
    induction lights with
    | nil => intro pixel; rw [shade_lights_nil, shade_lights_direct]
    | cons light rest ih =>
      intro pixel
      rw [shade_lights_cons]
      simp only [dif_neg (by omega : ¬ (0 : ℤ) < d), ite_self]
      rw [shade_lights_direct]
      exact ih _
  constructor
  · intro scene ray d hd
    rw [shade_pixel_eq]
    cases h : cast_ray scene ray with
    | none => rfl
    | some isect => exact key scene ray isect d hd _ _
  · intro scene ray isect light d hl hi hrefl hd hmiss
    rw [shade_pixel_eq, hi]
    show shade_lights scene ray isect d scene.lights ⟨0, 0, 0⟩ = _
    rw [hl, shade_lights_cons]
    simp only [if_pos hrefl, dif_pos hd]
    rw [shade_lights_nil, shade_pixel_eq, hmiss]

theorem c5_depth_cutoff_witness :
    (shade_pixel box_scene box_ray 0 =
      match cast_ray box_scene box_ray with
      | none => ⟨0, 0.4, 1⟩
      | some isect => shade_lights_direct box_scene isect box_scene.lights ⟨0, 0, 0⟩) ∧
    shade_pixel box_scene_lit box_ray 1 =
      Vector3.mk 0 0.4 1 * box_isect.material.reflection :=
  ⟨c5_depth_cutoff.1 box_scene box_ray 0 (by norm_num),
   c5_depth_cutoff.2 box_scene_lit box_ray box_isect light0 1 rfl cast_box_lit
     (by norm_num [box_isect, mirror_mat]) (by norm_num) refl_miss⟩

/-! ### C4: the reflection branch replaces the accumulated color -/

/-- C4: in a light iteration with reflective material (coefficient > 0) and
positive remaining depth, the accumulated color (diffuse/specular/ambient,
and whatever was accumulated before) is replaced — not added to — by the
recursively shaded reflection ray (direction `dir - normal*dot(dir,normal)*2`,
origin offset by 0.001 along it, depth decremented) scaled by the reflection
coefficient. -/
theorem c4_reflection_replaces (scene : Scene) (ray : Ray) (isect : Intersection)
    (d : ℤ) (light : Light) (rest : List Light) (pixel : Vector3)
    (hrefl : 0 < isect.material.reflection) (hd : 0 < d) :
    shade_lights scene ray isect d (light :: rest) pixel =
      shade_lights scene ray isect d rest
        (shade_pixel scene
          ⟨isect.pos + (ray.dir - isect.normal * (ray.dir.dot isect.normal) * (2 : ℝ)) * (0.001 : ℝ),
           ray.dir - isect.normal * (ray.dir.dot isect.normal) * (2 : ℝ)⟩ (d - 1)
          * isect.material.reflection) := by
  rw [shade_lights_cons]
  simp only [if_pos hrefl, dif_pos hd]

theorem c4_reflection_replaces_witness :
    shade_lights box_scene_lit box_ray box_isect 2 (light0 :: []) ⟨5, 5, 5⟩ =
      shade_lights box_scene_lit box_ray box_isect 2 []
        (shade_pixel box_scene_lit
          ⟨box_isect.pos + (box_ray.dir - box_isect.normal * (box_ray.dir.dot box_isect.normal) * (2 : ℝ)) * (0.001 : ℝ),
           box_ray.dir - box_isect.normal * (box_ray.dir.dot box_isect.normal) * (2 : ℝ)⟩ 1
          * box_isect.material.reflection) :=
  c4_reflection_replaces box_scene_lit box_ray box_isect 2 light0 [] ⟨5, 5, 5⟩
    (by norm_num [box_isect, mirror_mat]) (by norm_num)

/-! ### C6: shadow test and unconditional ambient term -/

/-- C6: in every light iteration, the ambient term (material color × 0.1) is
added unconditionally, and the Blinn-Phong diffuse+specular term is added if
and only if the shadow ray (origin offset 0.001 along the unit light
direction, direction toward the light) hits nothing; afterwards the
reflection branch may replace the whole accumulator (iff the material is
reflective and depth remains). -/
theorem c6_shadow_and_ambient (scene : Scene) (ray : Ray) (isect : Intersection)
    (d : ℤ) (light : Light) (rest : List Light) (pixel : Vector3) :
    shade_lights scene ray isect d (light :: rest) pixel =
      shade_lights scene ray isect d rest
        (let light_dir := (light.pos - isect.pos).normalize
         let base := pixel
             + (if (cast_ray scene ⟨isect.pos + light_dir * (0.001 : ℝ), light_dir⟩).isNone
                then blinn_phong light_dir isect else ⟨0, 0, 0⟩)
             + isect.material.color * (0.1 : ℝ)
         if 0 < isect.material.reflection ∧ 0 < d then
           shade_pixel scene
             ⟨isect.pos + (ray.dir - isect.normal * (ray.dir.dot isect.normal) * (2 : ℝ)) * (0.001 : ℝ),
              ray.dir - isect.normal * (ray.dir.dot isect.normal) * (2 : ℝ)⟩ (d - 1)
             * isect.material.reflection
         else base) := by
  rw [shade_lights_cons]
  rcases Classical.em (0 < isect.material.reflection) with hr | hr
  · rcases Classical.em (0 < d) with hd | hd
    · simp only [if_pos hr, dif_pos hd, if_pos (And.intro hr hd)]
    · simp only [if_pos hr, dif_neg hd,
        if_neg (fun hc : _ ∧ _ => hd hc.2)]
      cases hsr : cast_ray scene
          ⟨isect.pos + ((light.pos - isect.pos).normalize) * (0.001 : ℝ),
           (light.pos - isect.pos).normalize⟩ with
      | none => simp [hsr]
      | some i => simp [hsr, add_zero_vec]
  · simp only [if_neg hr, if_neg (fun hc : _ ∧ _ => hr hc.1)]
    cases hsr : cast_ray scene
        ⟨isect.pos + ((light.pos - isect.pos).normalize) * (0.001 : ℝ),
         (light.pos - isect.pos).normalize⟩ with
    | none => simp [hsr]
    | some i => simp [hsr, add_zero_vec]

/-! ### C1: the checkerboard parity -/

/-- C1 (counterexample): the claim says an even `⌊2z⌋+⌊2x⌋` leaves the base
color unmodified, but the code zeroes it: `plane0` (base color (1,0,0)) is
hit by `ray_down` at (1,-1,1), where the floor sum is 4 (even), and the
reported base color is (0,0,0) ≠ (1,0,0). -/
theorem c1_checkerboard_counterexample :
    plane0.intersects ray_down = some plane_isect ∧
    Even (⌊2 * plane_isect.pos.z⌋ + ⌊2 * plane_isect.pos.x⌋) ∧
    plane_isect.material.color ≠ plane0.material.color := by
  refine ⟨plane_hit, ?_, ?_⟩
  · have h4 : (⌊2 * plane_isect.pos.z⌋ + ⌊2 * plane_isect.pos.x⌋) = 4 := by
      norm_num [plane_isect, floor_two_real]
    rw [h4]
    exact ⟨2, by norm_num⟩
  · intro h
    have hx := congrArg Vector3.x h
    simp only [plane_isect, plane0, red_mat] at hx
    norm_num at hx

/-- C1 (amended): a plane hit leaves the specular color unchanged and, at
the hit point, an even `⌊2z⌋+⌊2x⌋` zeroes the base color while an odd sum
leaves it unmodified (the claim had the two parities swapped). -/
theorem c1_plane_checkerboard (p : Plane) (ray : Ray) (i : Intersection)
    (h : p.intersects ray = some i) :
    i.material.spec_color = p.material.spec_color ∧
    (Even (⌊2 * i.pos.z⌋ + ⌊2 * i.pos.x⌋) → i.material.color = ⟨0, 0, 0⟩) ∧
    (¬ Even (⌊2 * i.pos.z⌋ + ⌊2 * i.pos.x⌋) → i.material.color = p.material.color) := by
  simp only [Plane.intersects] at h
  split at h
  case isFalse => exact absurd h (by simp)
  case isTrue ht =>
    rw [Option.some.injEq] at h
    subst h
    dsimp only
    refine ⟨rfl, fun he => ?_, fun ho => ?_⟩
    · rw [tmod_two_of_even _ he]
      simp
    · rw [← Int.cast_abs, abs_tmod_two_of_odd _ ho]
      simp

theorem c1_plane_checkerboard_witness :
    plane_isect.material.spec_color = plane0.material.spec_color ∧
    (Even (⌊2 * plane_isect.pos.z⌋ + ⌊2 * plane_isect.pos.x⌋) →
      plane_isect.material.color = ⟨0, 0, 0⟩) ∧
    (¬ Even (⌊2 * plane_isect.pos.z⌋ + ⌊2 * plane_isect.pos.x⌋) →
      plane_isect.material.color = plane0.material.color) :=
  c1_plane_checkerboard plane0 ray_down plane_isect plane_hit

/-! ### C3: sign of the reported hit distance -/

/-- C3 (counterexample): a ray whose origin is inside the box gets a hit
with a negative distance: `unit_box` from the origin reports dist = -1. -/
theorem c3_dist_counterexample :
    unit_box.intersects box_ray = some inside_isect ∧
    ¬ (0 < inside_isect.dist) := by
  refine ⟨inside_hit, ?_⟩
  norm_num [inside_isect]

/-- C3 (amended): a Plane hit always has dist > 0 and a Sphere hit always
has dist ≥ 0 (zero occurs when the ray origin lies on the sphere); a BBox
hit carries `tnear`, which can be negative when the origin is inside the
box, so no positive lower bound holds for BBox. -/
theorem c3_dist_sign :
    (∀ (p : Plane) (ray : Ray) (i : Intersection),
      p.intersects ray = some i → 0 < i.dist) ∧
    (∀ (s : Sphere) (ray : Ray) (i : Intersection),
      s.intersects ray = some i → 0 ≤ i.dist) := by
  constructor
  · intro p ray i h
    simp only [Plane.intersects] at h
    split at h
    case isFalse => exact absurd h (by simp)
    case isTrue ht =>
      rw [Option.some.injEq] at h
      subst h
      exact ht
  · intro s ray i h
    simp only [Sphere.intersects] at h
    split at h
    case isTrue => exact absurd h (by simp)
    case isFalse h1 =>
      split at h
      case isTrue => exact absurd h (by simp)
      case isFalse h2 =>
        split at h
        case isTrue => exact absurd h (by simp)
        case isFalse h3 =>
          rw [Option.some.injEq] at h
          subst h
          dsimp only
          push_neg at h1 h3
          split
          case isTrue h4 => exact h3 h4
          case isFalse h4 =>
            push_neg at h4
            exact le_min h4 (add_nonneg h1 (Real.sqrt_nonneg _))

theorem c3_dist_sign_witness :
    0 < plane_isect.dist ∧ 0 ≤ sphere_isect.dist :=
  ⟨c3_dist_sign.1 plane0 ray_down plane_isect plane_hit,
   c3_dist_sign.2 sphere0 ray_z sphere_isect sphere_hit⟩

/-! ### C8: the display color conversion -/

theorem floor_half_255 : ⌊(255 / 2 : ℝ)⌋ = 127 := by
  rw [Int.floor_eq_iff]
  norm_num

theorem floor_255 : ⌊(255 : ℝ)⌋ = 255 := by
  rw [Int.floor_eq_iff]
  norm_num

/-- C8 (counterexample): the conversion truncates rather than rounds —
component 1/2 maps to 127 while the claimed round(min(1/2,1)*255) =
round(127.5) = 128 — and a negative component IS clamped to 0 at the low
end by the saturating cast: component -1 maps to 0, not an unclamped
value. -/
theorem c8_to_rgb_counterexample :
    Vector3.to_rgb ⟨1 / 2, -1, 2⟩ = (127, 0, 255) ∧
    display_color_spec (1 / 2) = 128 ∧ (127 : ℕ) ≠ 128 := by
  refine ⟨?_, ?_, by norm_num⟩
  · have hm1 : min ((1 / 2 : ℝ) * 255) 255 = 255 / 2 := by
      rw [min_eq_left (by norm_num)]
      norm_num
    have hm2 : min ((-1 : ℝ) * 255) 255 = -255 := by
      rw [min_eq_left (by norm_num)]
      norm_num
    have hm3 : min ((2 : ℝ) * 255) 255 = 255 := by
      rw [min_eq_right (by norm_num)]
    have hf2 : ⌊(-255 : ℝ)⌋ = -255 := by
      rw [Int.floor_eq_iff]
      norm_num
    simp only [Vector3.to_rgb, f64_to_u8, hm1, hm2, hm3, floor_half_255, hf2, floor_255]
    norm_num
    exact ⟨rfl, rfl⟩
  · have : min (1 / 2 : ℝ) 1 = 1 / 2 := min_eq_left (by norm_num)
    rw [display_color_spec, this, round_eq, show (1 / 2 : ℝ) * 255 + 1 / 2 = 128 by norm_num]
    rw [Int.floor_eq_iff]
    norm_num

/-- C8 (amended): each channel is the saturating truncation
`min (Int.toNat ⌊min(c*255, 255)⌋) 255`: a component above 1 yields 255,
component 0 yields 0, a negative component saturates to 0 (it IS clamped at
the low end), and a nonnegative component yields the floor — truncation,
not rounding — of `min(c,1)*255`. -/
theorem c8_to_rgb_amended (v : Vector3) (c : ℝ) :
    v.to_rgb = (f64_to_u8 (min (v.x * 255) 255), f64_to_u8 (min (v.y * 255) 255),
      f64_to_u8 (min (v.z * 255) 255)) ∧
    (1 < c → f64_to_u8 (min (c * 255) 255) = 255) ∧
    (c = 0 → f64_to_u8 (min (c * 255) 255) = 0) ∧
    (c < 0 → f64_to_u8 (min (c * 255) 255) = 0) ∧
    (0 ≤ c → f64_to_u8 (min (c * 255) 255) = Int.toNat ⌊min c 1 * 255⌋) := by
  refine ⟨rfl, fun hc => ?_, fun hc => ?_, fun hc => ?_, fun hc => ?_⟩
  · rw [show min (c * 255) 255 = 255 from min_eq_right (by nlinarith),
      f64_to_u8, floor_255]
    rfl
  · subst hc
    rw [f64_to_u8, show min ((0 : ℝ) * 255) 255 = 0 from by norm_num]
    simp
  · have hneg : min (c * 255) 255 < 0 := by
      rw [min_eq_left (by nlinarith)]
      nlinarith
    have hfl : ⌊min (c * 255) 255⌋ < 0 := by
      rw [Int.floor_lt]
      exact_mod_cast hneg
    rw [f64_to_u8, Int.toNat_of_nonpos (le_of_lt hfl)]
    simp
  · have hmin : min (c * 255) 255 = min c 1 * 255 := by
      rcases le_total c 1 with h | h
      · rw [min_eq_left (by nlinarith), min_eq_left h]
      · rw [min_eq_right (by nlinarith), min_eq_right h]
        norm_num
    have hle : ⌊min c 1 * 255⌋ ≤ 255 := by
      have h1 : min c 1 * 255 ≤ 255 := by
        have h2 := min_le_right c 1
        nlinarith
      calc ⌊min c 1 * 255⌋ ≤ ⌊(255 : ℝ)⌋ := Int.floor_le_floor h1
        _ = 255 := floor_255
    rw [f64_to_u8, hmin]
    exact min_eq_left (by omega)

theorem c8_to_rgb_amended_witness :
    f64_to_u8 (min ((2 : ℝ) * 255) 255) = 255 ∧
    f64_to_u8 (min ((0 : ℝ) * 255) 255) = 0 ∧
    f64_to_u8 (min ((-1 : ℝ) * 255) 255) = 0 ∧
    f64_to_u8 (min ((1 / 2 : ℝ) * 255) 255) = Int.toNat ⌊min (1 / 2 : ℝ) 1 * 255⌋ :=
  ⟨(c8_to_rgb_amended ⟨0, 0, 0⟩ 2).2.1 (by norm_num),
   (c8_to_rgb_amended ⟨0, 0, 0⟩ 0).2.2.1 rfl,
   (c8_to_rgb_amended ⟨0, 0, 0⟩ (-1)).2.2.2.1 (by norm_num),
   (c8_to_rgb_amended ⟨0, 0, 0⟩ (1 / 2)).2.2.2.2 (by norm_num)⟩

/-! ### C7: the render driver — buffer length and pixel indexing -/

theorem add_sub_cancel_vec (p a b c : Vector3) : p + a + b + c - p = a + b + c := by
  cases p; cases a; cases b; cases c
  simp only [add_def, sub_def, Vector3.mk.injEq]
  refine ⟨by ring, by ring, by ring⟩

theorem foldl_preserve_length (step : List Vector3 → ℕ → List Vector3)
    (hstep : ∀ px j, (step px j).length = px.length) :
    ∀ (xs : List ℕ) (px : List Vector3), (List.foldl step px xs).length = px.length := by
  intro xs
  induction xs with
  | nil => intro px; rfl
  | cons a xs ih =>
    intro px
    rw [List.foldl_cons, ih, hstep]

theorem foldl_set_length {f : ℕ → ℕ} {g : ℕ → Vector3}
    (step : List Vector3 → ℕ → List Vector3)
    (hstep : ∀ px j, step px j = px.set (f j) (g j)) :
    ∀ (xs : List ℕ) (px : List Vector3), (List.foldl step px xs).length = px.length :=
  foldl_preserve_length step (fun px j => by rw [hstep, List.length_set])

theorem foldl_set_get_of_not_mem {f : ℕ → ℕ} {g : ℕ → Vector3}
    (step : List Vector3 → ℕ → List Vector3)
    (hstep : ∀ px j, step px j = px.set (f j) (g j)) :
    ∀ (xs : List ℕ) (px : List Vector3) (i : ℕ), (∀ j ∈ xs, f j ≠ i) →
      (List.foldl step px xs)[i]? = px[i]? := by
  intro xs
  induction xs with
  | nil => intro px i _; rfl
  | cons a xs ih =>
    intro px i hne
    rw [List.foldl_cons, ih _ _ (fun j hj => hne j (List.mem_cons_of_mem _ hj)), hstep]
    exact List.getElem?_set_ne (hne a (List.mem_cons_self _ _))

theorem foldl_set_get_of_mem {f : ℕ → ℕ} {g : ℕ → Vector3}
    (step : List Vector3 → ℕ → List Vector3)
    (hstep : ∀ px j, step px j = px.set (f j) (g j)) :
    ∀ (xs : List ℕ) (px : List Vector3) (i j : ℕ), j ∈ xs → f j = i →
      (∀ a ∈ xs, a ≠ j → f a ≠ i) → xs.Nodup → i < px.length →
      (List.foldl step px xs)[i]? = some (g j) := by
  intro xs
  induction xs with
  | nil => intro px i j hj _ _ _ _; exact absurd hj (List.not_mem_nil _)
  | cons a xs ih =>
    intro px i j hj hfj honly hnd hlen
    rw [List.foldl_cons, hstep]
    rcases List.mem_cons.mp hj with heq | hmem
    · subst heq
      have hnotin : j ∉ xs := (List.nodup_cons.mp hnd).1
      rw [foldl_set_get_of_not_mem step hstep xs _ i
        (fun b hb => honly b (List.mem_cons_of_mem _ hb) (fun hbj => hnotin (hbj ▸ hb)))]
      rw [hfj]
      exact List.getElem?_set_self hlen
    · exact ih _ i j hmem hfj (fun b hb => honly b (List.mem_cons_of_mem _ hb))
        (List.nodup_cons.mp hnd).2 (by rw [List.length_set]; exact hlen)

theorem row_index_ne {w q q' a b : ℕ} (ha : a < w) (hb : b < w) (hq : q ≠ q') :
    q * w + a ≠ q' * w + b := by
  rcases Nat.lt_or_ge q q' with hlt | hge
  · have h1 : (q + 1) * w ≤ q' * w := Nat.mul_le_mul_right w hlt
    have h2 : (q + 1) * w = q * w + w := Nat.succ_mul q w
    omega
  · have hlt' : q' < q := by omega
    have h1 : (q' + 1) * w ≤ q * w := Nat.mul_le_mul_right w hlt'
    have h2 : (q' + 1) * w = q' * w + w := Nat.succ_mul q' w
    omega

theorem index_lt {w h x y : ℕ} (hx : x < w) (hy : y < h) :
    (h - 1 - y) * w + x < w * h := by
  have h1 : h - 1 - y ≤ h - 1 := Nat.sub_le _ _
  have h2 : (h - 1 - y) * w ≤ (h - 1) * w := Nat.mul_le_mul_right w h1
  have h3 : (h - 1 + 1) * w = (h - 1) * w + w := Nat.succ_mul (h - 1) w
  have h4 : h - 1 + 1 = h := by omega
  rw [h4] at h3
  have h5 : w * h = h * w := Nat.mul_comm w h
  omega

theorem rows_foldl_preserve (w h : ℕ) (val : ℕ → ℕ → Vector3)
    (inner : List Vector3 → ℕ → List Vector3)
    (hinner : ∀ px y', inner px y' =
      (List.range w).foldl
        (fun px x' => px.set ((h - 1 - y') * w + x') (val x' y')) px)
    (x y : ℕ) (hx : x < w) (hy : y < h) :
    ∀ (ys : List ℕ) (px : List Vector3), (∀ b ∈ ys, b < h ∧ b ≠ y) →
      (ys.foldl inner px)[((h - 1 - y) * w + x)]? = px[((h - 1 - y) * w + x)]? := by
  intro ys
  induction ys with
  | nil => intro px _; rfl
  | cons b ys ih =>
    intro px hb
    rw [List.foldl_cons, hinner]
    rw [ih _ (fun c hc => hb c (List.mem_cons_of_mem _ hc))]
    have hbprop := hb b (List.mem_cons_self _ _)
    exact foldl_set_get_of_not_mem _ (fun px' j => rfl) (List.range w) px _
      (fun j hj => row_index_ne (List.mem_range.mp hj) hx (by omega))

theorem rows_foldl_get (w h : ℕ) (val : ℕ → ℕ → Vector3)
    (inner : List Vector3 → ℕ → List Vector3)
    (hinner : ∀ px y', inner px y' =
      (List.range w).foldl
        (fun px x' => px.set ((h - 1 - y') * w + x') (val x' y')) px)
    (x y : ℕ) (hx : x < w) (hy : y < h) :
    ∀ (ys : List ℕ) (px : List Vector3), y ∈ ys → ys.Nodup → (∀ b ∈ ys, b < h) →
      px.length = w * h →
      (ys.foldl inner px)[((h - 1 - y) * w + x)]? = some (val x y) := by
  intro ys
  induction ys with
  | nil => intro px hmem _ _ _; exact absurd hmem (List.not_mem_nil _)
  | cons b ys ih =>
    intro px hmem hnd hbound hlen
    rw [List.foldl_cons]
    rcases List.mem_cons.mp hmem with heq | hmem'
    · subst heq
      rw [rows_foldl_preserve w h val inner hinner x y hx hy ys _
        (fun c hc => ⟨hbound c (List.mem_cons_of_mem _ hc),
          fun hcy => (List.nodup_cons.mp hnd).1 (hcy ▸ hc)⟩)]
      rw [hinner]
      exact foldl_set_get_of_mem _ (fun px' j => rfl) (List.range w) px _ x
        (List.mem_range.mpr hx) rfl
        (fun a _ hax heq2 => hax (by omega))
        (List.nodup_range w) (by rw [hlen]; exact index_lt hx hy)
    · exact ih _ hmem' (List.nodup_cons.mp hnd).2
        (fun c hc => hbound c (List.mem_cons_of_mem _ hc))
        (by rw [hinner]
            exact (foldl_set_length _ (fun px' j => rfl) _ _).trans hlen)

/-- C7: `raytrace` returns a buffer of length width×height in which the
entry at index `(height-1-y)*width + x` is `shade_pixel` at depth budget 3
of the primary ray from the camera position along
`normalize(forward*dist + right*u + up*v)`, `forward = normalize(right×up)`,
`u = x*2/width - 1`, `v = y*2/height - 1`. -/
theorem c7_raytrace_spec (scene : Scene) (w h x y : ℕ) (hx : x < w) (hy : y < h) :
    (raytrace scene w h).length = w * h ∧
    (raytrace scene w h)[((h - 1 - y) * w + x)]? =
      some (shade_pixel scene
        ⟨scene.camera.pos,
         ((scene.camera.right.cross scene.camera.up).normalize * scene.camera.dist
           + scene.camera.right * ((x : ℝ) * 2 / (w : ℝ) - 1)
           + scene.camera.up * ((y : ℝ) * 2 / (h : ℝ) - 1)).normalize⟩ 3) := by
  constructor
  · rw [raytrace]
    exact (foldl_preserve_length _
      (fun px y' => foldl_set_length _ (fun px' j => rfl) _ _) _ _).trans
      (List.length_replicate _ _)
  · have hmain := rows_foldl_get w h
      (fun x' y' => shade_pixel scene
        ⟨scene.camera.pos,
         (scene.camera.pos
           + (scene.camera.right.cross scene.camera.up).normalize * scene.camera.dist
           + scene.camera.right * ((x' : ℝ) * 2 / (w : ℝ) - 1)
           + scene.camera.up * ((y' : ℝ) * 2 / (h : ℝ) - 1)
           - scene.camera.pos).normalize⟩ 3)
      _ (fun px y' => rfl) x y hx hy (List.range h)
      (List.replicate (w * h) ⟨0, 0, 0⟩)
      (List.mem_range.mpr hy) (List.nodup_range h)
      (fun b hb => List.mem_range.mp hb)
      (List.length_replicate _ _)
    have hval : ∀ a b : ℕ, (scene.camera.pos
          + (scene.camera.right.cross scene.camera.up).normalize * scene.camera.dist
          + scene.camera.right * ((a : ℝ) * 2 / (w : ℝ) - 1)
          + scene.camera.up * ((b : ℝ) * 2 / (h : ℝ) - 1)
          - scene.camera.pos) =
        ((scene.camera.right.cross scene.camera.up).normalize * scene.camera.dist
          + scene.camera.right * ((a : ℝ) * 2 / (w : ℝ) - 1)
          + scene.camera.up * ((b : ℝ) * 2 / (h : ℝ) - 1)) :=
      fun a b => add_sub_cancel_vec _ _ _ _
    rw [raytrace]
    exact hmain.trans (by simp only [hval])

theorem c7_raytrace_spec_witness :
    (raytrace box_scene 2 2).length = 2 * 2 ∧
    (raytrace box_scene 2 2)[((2 - 1 - 1) * 2 + 0)]? =
      some (shade_pixel box_scene
        ⟨box_scene.camera.pos,
         ((box_scene.camera.right.cross box_scene.camera.up).normalize * box_scene.camera.dist
           + box_scene.camera.right * (((0 : ℕ) : ℝ) * 2 / ((2 : ℕ) : ℝ) - 1)
           + box_scene.camera.up * (((1 : ℕ) : ℝ) * 2 / ((2 : ℕ) : ℝ) - 1)).normalize⟩ 3) :=
  c7_raytrace_spec box_scene 2 2 0 1 (by decide) (by decide)

end RT

end
